import Mathlib

/-!
# Verification of the `cce-checkin` barcode check-in logger

Shallow embedding of the two-mode CSV check-in tool (`src/checkin.go`, plus
the older variant source `src/unnamed/part_000`) and proofs of the spec's
claims about it.

Modelling conventions:

* The CSV store is modelled *after* CSV framing, as `List (List String)`
  (one inner list per row, one `String` per field), exactly what Go's
  `csv.Reader.ReadAll` yields.  Go's all-or-nothing field-count check
  (`FieldsPerRecord` defaulting to the first row's width) is modelled by
  `readAll`.
* Go `time.Time` values are modelled by wall-clock `DateTime` components in
  the machine's local zone; the local zone offset is fixed at `+00:00`
  (the claims under study are offset-generic, and the program only ever
  formats the one local zone).  Absolute instants are `Int` seconds on a
  uniform local timeline via `toSecs` (days from the civil calendar,
  86400 seconds per day; DST transitions are not modelled, matching the
  spec's "no timezone conversion beyond local-time formatting").
* Runtime panics (Go slice/index out of range, e.g. `record[0][:10]` on a
  short field) are modelled as `Option.none` results.
* Machine integers are modelled as unbounded `Int`/`Nat`
  (`strconv.Atoi` overflow is out of scope).
* Go strings are byte strings; all data the program generates is ASCII, so
  `List Char` positions coincide with byte positions.
-/

namespace Checkin

/-! ## Decimal digits, Go `%d` formatting and `strconv.Atoi` -/

/-- The decimal digit character for `n < 10` (`'0'` .. `'9'`). -/
def digitChar (n : Nat) : Char := Char.ofNat (48 + n)

/-- Numeric value of a decimal digit character, `none` for non-digits. -/
def digitVal (c : Char) : Option Nat :=
  if 48 ≤ c.toNat ∧ c.toNat ≤ 57 then some (c.toNat - 48) else none

/-- Fuel-driven helper for `natDigits` (structural recursion on the fuel,
so that the kernel can evaluate it; the fuel-0 case is never reached with
fuel `n`, since a number has at most `n` decimal digits). -/
def natDigitsAux : Nat → Nat → List Char
  | 0, n => [digitChar n]
  | fuel + 1, n =>
    if n < 10 then [digitChar n]
    else natDigitsAux fuel (n / 10) ++ [digitChar (n % 10)]

/-- Decimal digit list of a natural number, most significant first
(no sign, no leading zeros), as Go's `fmt.Sprintf("%d", n)` prints it. -/
def natDigits (n : Nat) : List Char := natDigitsAux n n

theorem natDigitsAux_fuel :
    ∀ (f1 : Nat) {f2 n : Nat}, n ≤ f1 → n ≤ f2 →
      natDigitsAux f1 n = natDigitsAux f2 n := by
  intro f1
  induction f1 with
  | zero =>
    intro f2 n h1 _
    have : n = 0 := by omega
    subst this
    cases f2 with
    | zero => rfl
    | succ f2 => simp [natDigitsAux]
  | succ f1 ih =>
    intro f2 n h1 h2
    cases f2 with
    | zero =>
      have : n = 0 := by omega
      subst this
      simp [natDigitsAux]
    | succ f2 =>
      by_cases hn : n < 10
      · simp [natDigitsAux, hn]
      · simp only [natDigitsAux, if_neg hn]
        have hdiv : n / 10 < n := Nat.div_lt_self (by omega) (by omega)
        rw [@ih f2 (n / 10) (by omega) (by omega)]

/-- The defining recursion of `natDigits`. -/
theorem natDigits_eq (n : Nat) :
    natDigits n = if n < 10 then [digitChar n]
      else natDigits (n / 10) ++ [digitChar (n % 10)] := by
  unfold natDigits
  cases n with
  | zero => simp [natDigitsAux]
  | succ m =>
    by_cases hn : m + 1 < 10
    · simp [natDigitsAux, hn]
    · simp only [natDigitsAux, if_neg hn]
      have hdiv : (m + 1) / 10 < m + 1 := Nat.div_lt_self (by omega) (by omega)
      rw [@natDigitsAux_fuel m ((m + 1) / 10) ((m + 1) / 10) (by omega) (le_refl _)]

/-- Go's `fmt.Sprintf("%d", n)` for a natural number. -/
def natToDecString (n : Nat) : String := ⟨natDigits n⟩

/-- Go's `fmt.Sprintf("%d", i)` for an integer (minus sign when negative). -/
def intToDecString (i : Int) : String :=
  if i < 0 then ⟨'-' :: natDigits i.natAbs⟩ else ⟨natDigits i.natAbs⟩

/-- Value of a nonempty all-digit character list, left to right,
accumulating into `acc`; `none` as soon as a non-digit appears. -/
def digitsVal : List Char → Nat → Option Nat
  | [], acc => some acc
  | c :: cs, acc =>
    match digitVal c with
    | some d => digitsVal cs (acc * 10 + d)
    | none => none

/-- Go's `strconv.Atoi`: optional sign, then one or more decimal digits,
nothing else.  (Overflow of Go's `int` is not modelled.) -/
def atoi (s : String) : Option Int :=
  match s.data with
  | [] => none
  | c :: cs =>
    if c = '+' then
      if cs.isEmpty then none else (digitsVal cs 0).map Int.ofNat
    else if c = '-' then
      if cs.isEmpty then none else (digitsVal cs 0).map (fun n => -(Int.ofNat n))
    else (digitsVal (c :: cs) 0).map Int.ofNat

/-- The regular expression `^\d+$` from `runScanMode`: nonempty, all
characters decimal digits. -/
def isNumericStr (s : String) : Bool :=
  !s.data.isEmpty && s.data.all (fun c => (digitVal c).isSome)

/-! ## Local wall-clock date-times and the civil calendar -/

/-- A wall-clock date-time in the machine's local zone, the model of a Go
`time.Time` as the program observes it (`time.Now()` and parsed values).
The local zone offset is fixed at `+00:00` in this model. -/
structure DateTime where
  year : Nat
  month : Nat
  day : Nat
  hour : Nat
  minute : Nat
  second : Nat
deriving DecidableEq, Repr

/-- Gregorian leap-year rule. -/
def isLeapYear (y : Nat) : Bool :=
  y % 4 = 0 && (y % 100 ≠ 0 || y % 400 = 0)

/-- Number of days in month `m` of year `y` (Go's `time` package date
validation). -/
def daysInMonth (y m : Nat) : Nat :=
  if m = 2 then (if isLeapYear y then 29 else 28)
  else if m = 4 ∨ m = 6 ∨ m = 9 ∨ m = 11 then 30
  else 31

/-- Days since 1970-01-01 of the civil date `y-m-d` (standard
days-from-civil algorithm; the model assumes `y ≥ 1`). -/
def daysFromCivil (y m d : Nat) : Int :=
  let yy := if m ≤ 2 then y - 1 else y
  let era := yy / 400
  let yoe := yy % 400
  let mp := if m ≤ 2 then m + 9 else m - 3
  let doy := (153 * mp + 2) / 5 + d - 1
  let doe := yoe * 365 + yoe / 4 - yoe / 100 + doy
  (era * 146097 + doe : Int) - 719468

/-- Absolute instant (seconds on the uniform local timeline) of a
wall-clock date-time; the model of Go `time.Time` comparisons
(`After` / `Before` / `Equal`) and arithmetic (`Add`). -/
def toSecs (dt : DateTime) : Int :=
  86400 * daysFromCivil dt.year dt.month dt.day
    + 3600 * dt.hour + 60 * dt.minute + dt.second

/-- Validity of the wall-clock components (what `time.Now()` always
delivers, and what Go's zero-padded `Format` layout assumes: year at most
four digits). -/
def ValidDT (dt : DateTime) : Prop :=
  1 ≤ dt.year ∧ dt.year ≤ 9999 ∧
  1 ≤ dt.month ∧ dt.month ≤ 12 ∧
  1 ≤ dt.day ∧ dt.day ≤ daysInMonth dt.year dt.month ∧
  dt.hour ≤ 23 ∧ dt.minute ≤ 59 ∧ dt.second ≤ 59

instance (dt : DateTime) : Decidable (ValidDT dt) := by
  unfold ValidDT; infer_instance

/-! ## The program's two time layouts

`checkin.go` formats and parses with the fixed layouts
`"2006-01-02T15:04:05-07:00"` (records) and `"2006-01-02"` (dates). -/

/-- Two-character zero-padded decimal field (Go's `Format` for `01`, `02`,
`15`, `04`, `05`; values are always below 100 in valid date-times). -/
def pad2 (n : Nat) : List Char := [digitChar (n / 10 % 10), digitChar (n % 10)]

/-- Four-character zero-padded decimal field (Go's `Format` for `2006`;
years are always below 10000 in valid date-times). -/
def pad4 (n : Nat) : List Char :=
  [digitChar (n / 1000 % 10), digitChar (n / 100 % 10),
   digitChar (n / 10 % 10), digitChar (n % 10)]

/-- Character list of `dt.Format("2006-01-02T15:04:05-07:00")` (the local
offset is `+00:00` in this model). -/
def tsChars (dt : DateTime) : List Char :=
  pad4 dt.year ++ '-' :: (pad2 dt.month ++ '-' :: (pad2 dt.day ++
    'T' :: (pad2 dt.hour ++ ':' :: (pad2 dt.minute ++ ':' :: (pad2 dt.second ++
      ['+', '0', '0', ':', '0', '0'])))))

/-- `now.Format("2006-01-02T15:04:05-07:00")` from `runScanMode`. -/
def formatTimestamp (dt : DateTime) : String := ⟨tsChars dt⟩

/-- `now.Format("2006-01-02")` from `runScanMode` (the current-date
string). -/
def formatDate (dt : DateTime) : String :=
  ⟨pad4 dt.year ++ '-' :: (pad2 dt.month ++ '-' :: pad2 dt.day)⟩

/-- Go's `time.Parse` / `time.ParseInLocation` with layout
`"2006-01-02T15:04:05-07:00"`: fixed-width zero-padded fields, literal
separators, a signed numeric zone offset, and Go's range validation of the
date components.  Returns the absolute instant (wall-clock seconds minus
the parsed offset). -/
def parseTimestamp (s : String) : Option Int :=
  match s.data with
  | [y3, y2, y1, y0, a1, mo1, mo0, a2, d1, d0, a3, h1, h0, a4,
     mi1, mi0, a5, se1, se0, sg, o1, o0, a6, p1, p0] =>
    match digitVal y3, digitVal y2, digitVal y1, digitVal y0,
          digitVal mo1, digitVal mo0, digitVal d1, digitVal d0,
          digitVal h1, digitVal h0, digitVal mi1, digitVal mi0,
          digitVal se1, digitVal se0, digitVal o1, digitVal o0,
          digitVal p1, digitVal p0 with
    | some b3, some b2, some b1, some b0, some m1, some m0, some e1, some e0,
      some g1, some g0, some n1, some n0, some t1, some t0, some v1, some v0,
      some w1, some w0 =>
      let y := 1000 * b3 + 100 * b2 + 10 * b1 + b0
      let mo := 10 * m1 + m0
      let d := 10 * e1 + e0
      let h := 10 * g1 + g0
      let mi := 10 * n1 + n0
      let se := 10 * t1 + t0
      let oh := 10 * v1 + v0
      let om := 10 * w1 + w0
      if a1 = '-' ∧ a2 = '-' ∧ a3 = 'T' ∧ a4 = ':' ∧ a5 = ':' ∧ a6 = ':' ∧
         (sg = '+' ∨ sg = '-') ∧
         1 ≤ mo ∧ mo ≤ 12 ∧ 1 ≤ d ∧ d ≤ daysInMonth y mo ∧
         h ≤ 23 ∧ mi ≤ 59 ∧ se ≤ 59 ∧ om ≤ 59 then
        let wall : Int := 86400 * daysFromCivil y mo d + 3600 * h + 60 * mi + se
        let offs : Int := 3600 * oh + 60 * om
        some (if sg = '-' then wall + offs else wall - offs)
      else none
    | _, _, _, _, _, _, _, _, _, _, _, _, _, _, _, _, _, _ => none
  | _ => none

/-- Go's `time.ParseInLocation` with layout `"2006-01-02"`: returns the
day number (days since 1970-01-01); local midnight of the date is
`86400 *` this value. -/
def parseDate (s : String) : Option Int :=
  match s.data with
  | [y3, y2, y1, y0, a1, mo1, mo0, a2, d1, d0] =>
    match digitVal y3, digitVal y2, digitVal y1, digitVal y0,
          digitVal mo1, digitVal mo0, digitVal d1, digitVal d0 with
    | some b3, some b2, some b1, some b0, some m1, some m0, some e1, some e0 =>
      let y := 1000 * b3 + 100 * b2 + 10 * b1 + b0
      let mo := 10 * m1 + m0
      let d := 10 * e1 + e0
      if a1 = '-' ∧ a2 = '-' ∧
         1 ≤ mo ∧ mo ≤ 12 ∧ 1 ≤ d ∧ d ≤ daysInMonth y mo then
        some (daysFromCivil y mo d)
      else none
    | _, _, _, _, _, _, _, _ => none
  | _ => none

/-! ## The CSV store -/

/-- A parsed CSV row: one string per field. -/
abbrev Row := List String

/-- Go `csv.Reader.ReadAll` on the already-framed rows of the store file.
With the default `FieldsPerRecord = 0`, the first row fixes the expected
field count and any later row with a different count makes `ReadAll`
return an error (`none` here); the program then falls back to a default
instead of processing any rows. -/
def readAll (rows : List Row) : Option (List Row) :=
  match rows with
  | [] => some []
  | r :: rs => if rs.all (fun r2 => r2.length = r.length) then some (r :: rs) else none

/-- Go string slicing `s[:10]`, which panics (`none`) when the string is
shorter than 10 bytes — exactly what `getDailyCount` does to the first
field of every row. -/
def take10 (s : String) : Option String :=
  if s.data.length < 10 then none else some ⟨s.data.take 10⟩

/-- Inner loop of `getDailyCount` over the rows `ReadAll` returned:
`maxCount` accumulates the largest `Atoi`-parsed third field among rows
whose first ten characters equal `currentDate`.  `record[0][:10]` is
evaluated before the `len(record) > 2` guard, so a missing or short first
field is a runtime panic (`none`). -/
def dailyCountLoop (currentDate : String) : List Row → Int → Option Int
  | [], maxCount => some maxCount
  | record :: rest, maxCount =>
    match record.head? with
    | none => none
    | some f0 =>
      match take10 f0 with
      | none => none
      | some recordDate =>
        if recordDate = currentDate ∧ record.length > 2 then
          match (record.get? 2).bind atoi with
          | some count =>
              dailyCountLoop currentDate rest (if count > maxCount then count else maxCount)
          | none => dailyCountLoop currentDate rest maxCount
        else dailyCountLoop currentDate rest maxCount

/-- `getDailyCount` from `checkin.go`: re-reads the whole store and
returns the maximum sequence value among rows dated `currentDate`
(0 when none, and 0 when `ReadAll` fails).  `none` models a panic. -/
def getDailyCount (rows : List Row) (currentDate : String) : Option Int :=
  match readAll rows with
  | none => some 0
  | some records => dailyCountLoop currentDate records 0

/-- Inner loop of `checkRecentDuplicate`: a row whose first field fails
timestamp parsing is skipped; otherwise `record[1]` is compared with the
barcode and the parsed instant with the cutoff `now − 2h` (strictly
later ⇒ duplicate).  `record[0]` / `record[1]` out of range is a panic
(`none`). -/
def duplicateLoop (barcodeID : String) (cutoff : Int) : List Row → Option Bool
  | [] => some false
  | record :: rest =>
    match record.head? with
    | none => none
    | some f0 =>
      match parseTimestamp f0 with
      | none => duplicateLoop barcodeID cutoff rest
      | some recordTime =>
        match record.get? 1 with
        | none => none
        | some f1 =>
          if f1 = barcodeID ∧ cutoff < recordTime then some true
          else duplicateLoop barcodeID cutoff rest

/-- `checkRecentDuplicate` from `checkin.go`: re-reads the whole store and
reports whether some row carries the same barcode with a timestamp
strictly later than `nowSecs − 7200` (false when `ReadAll` fails).
`none` models a panic. -/
def checkRecentDuplicate (rows : List Row) (barcodeID : String) (nowSecs : Int) :
    Option Bool :=
  match readAll rows with
  | none => some false
  | some records => duplicateLoop barcodeID (nowSecs - 7200) records

/-! ## Scan Mode (`runScanMode` of `checkin.go`) -/

/-- The store file name Scan Mode opens and appends to (`checkin.go`). -/
def scanStoreFile : String := "scans.csv"

/-- One loop iteration's observable input: the line the operator typed and
the wall-clock time of the iteration.  (The code calls `time.Now()` twice
per iteration, microseconds apart inside `checkRecentDuplicate` and at the
timestamp; the model uses one instant.) -/
abbrev ScanEvent := String × DateTime

/-- The state `runScanMode` threads through its loop: the store file's
rows, and the two mutable locals `currentDate` and `dailyCount`. -/
structure ScanState where
  rows : List Row
  currentDate : String
  dailyCount : Int
deriving DecidableEq, Repr

/-- Initialization of `runScanMode` before the loop: `currentDate` is
today's date string and `dailyCount` is loaded from the store by
`getDailyCount` (a panic there is `none`). -/
def scanInit (rows : List Row) (startNow : DateTime) : Option ScanState :=
  (getDailyCount rows (formatDate startNow)).map
    (fun c => ⟨rows, formatDate startNow, c⟩)

/-- One iteration of the scan loop on a non-"exit" input line, mirroring
`runScanMode`'s body in order: numeric check (re-prompt on failure),
duplicate check (skip on duplicate), date rollover reset, increment,
format, append.  `none` models a panic inside the duplicate check. -/
def scanStep (st : ScanState) (input : String) (now : DateTime) :
    Option ScanState :=
  if isNumericStr input then
    match checkRecentDuplicate st.rows input (toSecs now) with
    | none => none
    | some true => some st
    | some false =>
      let currentDate :=
        if formatDate now ≠ st.currentDate then formatDate now else st.currentDate
      let dailyCount :=
        (if formatDate now ≠ st.currentDate then 0 else st.dailyCount) + 1
      let record : Row := [formatTimestamp now, input, intToDecString dailyCount]
      some ⟨st.rows ++ [record], currentDate, dailyCount⟩
  else some st

/-- The scan loop over a list of input events, stopping at the literal
token `"exit"`. -/
def scanEvents (st : ScanState) : List ScanEvent → Option ScanState
  | [] => some st
  | (input, now) :: rest =>
    if input = "exit" then some st
    else (scanStep st input now).bind (fun st2 => scanEvents st2 rest)

/-- `runScanMode` of `checkin.go` as a function of the initial store and
the interactive session: initialization followed by the loop. -/
def runScanMode (rows : List Row) (startNow : DateTime)
    (events : List ScanEvent) : Option ScanState :=
  (scanInit rows startNow).bind (fun st => scanEvents st events)

/-- One iteration of the `part_000` variant's scan loop: no duplicate
check, no sequence counter; it appends a two-field record
`[timestamp, barcodeID]` for every numeric input. -/
def scanStepPartZero (rows : List Row) (input : String) (now : DateTime) :
    List Row :=
  if isNumericStr input then rows ++ [[formatTimestamp now, input]] else rows

/-- The store file name the `part_000` variant's Scan Mode opens. -/
def scanStoreFilePartZero : String := "scans.csv"

/-! ## Export Mode (`runExportMode` of `checkin.go`) -/

/-- The store file name Export Mode opens and reads (`checkin.go`). -/
def exportStoreFile : String := "scanned_barcodes.csv"

/-- The store file name the `part_000` variant's Export Mode opens. -/
def exportStoreFilePartZero : String := "scans.csv"

/-- Observable outcome of `runExportMode` (after the store file was
opened): each early `return` path, or the created file's name and
contents.  Only `exported` creates a file in the working directory. -/
inductive ExportOutcome where
  /-- `ReadAll` failed: "Error reading CSV", no file created. -/
  | readError : ExportOutcome
  /-- The start or end date flag failed to parse: error printed, no file. -/
  | dateError : ExportOutcome
  /-- Zero matches: "No records found for the specified date range.",
  no file created. -/
  | noRecords : ExportOutcome
  /-- A file named `filename` was created containing `records`. -/
  | exported : (filename : String) → (records : List Row) → ExportOutcome
deriving DecidableEq, Repr

/-- The record-matching comparison of `runExportMode`:
`(recordTime.Equal(start) || recordTime.After(start)) && recordTime.Before(end)`. -/
def exportMatch (startS endS t : Int) : Bool :=
  (t = startS || startS < t) && t < endS

/-- The filtering loop of `runExportMode`: rows whose first field fails
timestamp parsing are skipped; matching rows are appended in store order.
`record[0]` on a fieldless row is a panic (`none`). -/
def exportFilterLoop (startS endS : Int) : List Row → Option (List Row)
  | [] => some []
  | record :: rest =>
    match record.head? with
    | none => none
    | some f0 =>
      match parseTimestamp f0 with
      | none => exportFilterLoop startS endS rest
      | some recordTime =>
        if exportMatch startS endS recordTime then
          (exportFilterLoop startS endS rest).map (fun l => record :: l)
        else exportFilterLoop startS endS rest

/-- The export output file name, `fmt.Sprintf` with the start date, the
optional end date, and the match count. -/
def exportFileName (startDate endDate : String) (count : Nat) : String :=
  if endDate = "" then
    "export_" ++ startDate ++ "_" ++ natToDecString count ++ "_records.csv"
  else
    "export_" ++ startDate ++ "_to_" ++ endDate ++ "_" ++ natToDecString count
      ++ "_records.csv"

/-- `runExportMode` of `checkin.go` (identical in `part_000`): read the
whole store, parse the date flags, set the window upper bound to local
midnight of the end day plus 24h minus 1s, filter, and either report zero
matches or write the matches to the dynamically named file.  `none`
models a panic. -/
def runExportMode (rows : List Row) (startDate endDate : String) :
    Option ExportOutcome :=
  match readAll rows with
  | none => some .readError
  | some records =>
    match parseDate startDate with
    | none => some .dateError
    | some startDay =>
      let startS : Int := 86400 * startDay
      let endS? : Option Int :=
        if endDate = "" then some (startS + 86400 - 1)
        else (parseDate endDate).map (fun d => 86400 * d + 86400 - 1)
      match endS? with
      | none => some .dateError
      | some endS =>
        (exportFilterLoop startS endS records).map (fun filtered =>
          if filtered.isEmpty then .noRecords
          else .exported (exportFileName startDate endDate filtered.length) filtered)

/-! ## Spec-side notions

These definitions follow the specification's words ("date prefix",
"sequence value", "maximum sequence value among records whose date prefix
equals today's local date") and are to be compared with the code
functions above. -/

/-- The date prefix of a stored record: the first ten characters of its
first field. -/
def rowDate? (r : Row) : Option String :=
  r.head?.map (fun s => (⟨s.data.take 10⟩ : String))

/-- The sequence value of a stored record: its third field, read as a
decimal integer. -/
def rowSeq? (r : Row) : Option Int :=
  (r.get? 2).bind atoi

/-- The parsed timestamp of a stored record: its first field, read with
the record layout. -/
def rowTime? (r : Row) : Option Int :=
  r.head?.bind parseTimestamp

/-- The sequence values of the records whose date prefix equals `d`. -/
def seqsForDate (rows : List Row) (d : String) : List Int :=
  rows.filterMap (fun r => if rowDate? r = some d then rowSeq? r else none)

/-- "Max(existing sequence values among records whose date prefix equals
today's local date), or 0 if none exist" — the spec's daily counter. -/
def specMaxSeq (rows : List Row) (d : String) : Int :=
  (seqsForDate rows d).foldl max 0

/-- A well-formed stored record: exactly three fields, a parsable
timestamp, and a positive decimal sequence — the shape of every record
the program itself writes. -/
def WFRow (r : Row) : Prop :=
  ∃ a b c, r = [a, b, c] ∧ (∃ t, parseTimestamp a = some t) ∧
    (∃ k : Int, 0 < k ∧ atoi c = some k)

/-- A well-formed store: every row well-formed. -/
def WFStore (rows : List Row) : Prop := ∀ r ∈ rows, WFRow r

/-! ## Digit and decimal-string lemmas -/

theorem digitVal_digitChar {k : Nat} (h : k < 10) :
    digitVal (digitChar k) = some k := by
  interval_cases k <;> rfl

theorem digitVal_digitChar_mod (k : Nat) :
    digitVal (digitChar (k % 10)) = some (k % 10) :=
  digitVal_digitChar (Nat.mod_lt _ (by omega))

theorem digitsVal_append (l1 l2 : List Char) (acc : Nat) :
    digitsVal (l1 ++ l2) acc =
      match digitsVal l1 acc with
      | some a => digitsVal l2 a
      | none => none := by
  induction l1 generalizing acc with
  | nil => rfl
  | cons c cs ih =>
    simp only [List.cons_append, digitsVal]
    cases digitVal c with
    | none => rfl
    | some d => exact ih _

theorem natDigits_ne_nil (n : Nat) : natDigits n ≠ [] := by
  rw [natDigits_eq]
  split <;> simp

theorem natDigits_head_digit (n : Nat) :
    ∃ c cs, natDigits n = c :: cs ∧ (digitVal c).isSome := by
  induction n using Nat.strong_induction_on with
  | _ n ih =>
    rw [natDigits_eq]
    split
    · exact ⟨digitChar n, [], rfl, by rw [digitVal_digitChar (by omega)]; rfl⟩
    · rename_i h
      obtain ⟨c, cs, hcons, hdig⟩ := ih (n / 10) (Nat.div_lt_self (by omega) (by omega))
      exact ⟨c, cs ++ [digitChar (n % 10)], by rw [hcons]; rfl, hdig⟩

theorem digitsVal_natDigits (n : Nat) :
    ∀ acc, digitsVal (natDigits n) acc =
      some (acc * 10 ^ (natDigits n).length + n) := by
  induction n using Nat.strong_induction_on with
  | _ n ih =>
    intro acc
    rw [natDigits_eq]
    split
    · rename_i h
      simp [digitsVal, digitVal_digitChar h]
    · rename_i h
      have hlt : n / 10 < n := Nat.div_lt_self (by omega) (by omega)
      rw [digitsVal_append, ih (n / 10) hlt acc]
      simp only [digitsVal, digitVal_digitChar_mod, List.length_append,
        List.length_cons, List.length_nil]
      have : acc * 10 ^ ((natDigits (n / 10)).length + (0 + 1)) =
          acc * 10 ^ (natDigits (n / 10)).length * 10 := by ring
      rw [this]
      congr 1
      omega

theorem atoi_natToDecString (n : Nat) : atoi (natToDecString n) = some n := by
  obtain ⟨c, cs, hcons, hdig⟩ := natDigits_head_digit n
  have hc1 : c ≠ '+' := by
    intro h; rw [h] at hdig; simp [digitVal] at hdig
  have hc2 : c ≠ '-' := by
    intro h; rw [h] at hdig; simp [digitVal] at hdig
  have hdata : (natToDecString n).data = c :: cs := by
    simp [natToDecString, hcons]
  unfold atoi
  rw [hdata]
  simp only [if_neg hc1, if_neg hc2]
  rw [← hcons, digitsVal_natDigits n 0]
  simp

theorem atoi_intToDecString_nonneg (i : Int) (h : 0 ≤ i) :
    atoi (intToDecString i) = some i := by
  unfold intToDecString
  rw [if_neg (by omega)]
  have e1 : (⟨natDigits i.natAbs⟩ : String) = natToDecString i.natAbs := rfl
  rw [e1, atoi_natToDecString]
  simp [Int.natAbs_of_nonneg h]

/-! ## Timestamp format and parse lemmas -/

theorem tsChars_explicit (dt : DateTime) : tsChars dt =
    [digitChar (dt.year / 1000 % 10), digitChar (dt.year / 100 % 10),
     digitChar (dt.year / 10 % 10), digitChar (dt.year % 10), '-',
     digitChar (dt.month / 10 % 10), digitChar (dt.month % 10), '-',
     digitChar (dt.day / 10 % 10), digitChar (dt.day % 10), 'T',
     digitChar (dt.hour / 10 % 10), digitChar (dt.hour % 10), ':',
     digitChar (dt.minute / 10 % 10), digitChar (dt.minute % 10), ':',
     digitChar (dt.second / 10 % 10), digitChar (dt.second % 10),
     '+', '0', '0', ':', '0', '0'] := by
  simp [tsChars, pad4, pad2]

theorem parseTimestamp_formatTimestamp (dt : DateTime) (h : ValidDT dt) :
    parseTimestamp (formatTimestamp dt) = some (toSecs dt) := by
  obtain ⟨hy1, hy2, hm1, hm2, hd1, hd2, hh, hmi, hs⟩ := h
  have key : (formatTimestamp dt).data = _ := tsChars_explicit dt
  unfold parseTimestamp
  rw [key]
  simp only [digitVal_digitChar_mod, show digitVal '0' = some 0 from by decide]
  have hy : 1000 * (dt.year / 1000 % 10) + 100 * (dt.year / 100 % 10) +
      10 * (dt.year / 10 % 10) + dt.year % 10 = dt.year := by omega
  have hmo : 10 * (dt.month / 10 % 10) + dt.month % 10 = dt.month := by omega
  have hd31 : daysInMonth dt.year dt.month ≤ 31 := by
    unfold daysInMonth; split_ifs <;> omega
  have hdd : 10 * (dt.day / 10 % 10) + dt.day % 10 = dt.day := by omega
  have hho : 10 * (dt.hour / 10 % 10) + dt.hour % 10 = dt.hour := by omega
  have hmin : 10 * (dt.minute / 10 % 10) + dt.minute % 10 = dt.minute := by omega
  have hsec : 10 * (dt.second / 10 % 10) + dt.second % 10 = dt.second := by omega
  rw [hy, hmo, hdd, hho, hmin, hsec]
  rw [if_pos ⟨trivial, trivial, trivial, trivial, trivial, trivial, Or.inl trivial,
    hm1, hm2, hd1, hd2, hh, hmi, hs, by norm_num⟩]
  norm_num [toSecs]

theorem parseTimestamp_length {s : String} {t : Int}
    (h : parseTimestamp s = some t) : s.data.length = 25 := by
  unfold parseTimestamp at h
  split at h
  · rename_i heq
    rw [heq]
    rfl
  · exact absurd h (by simp)

theorem take10_formatTimestamp (dt : DateTime) :
    take10 (formatTimestamp dt) = some (formatDate dt) := by
  unfold take10
  rw [show (formatTimestamp dt).data = _ from tsChars_explicit dt]
  rw [if_neg (by simp)]
  congr 1

theorem dataTake10_formatTimestamp (dt : DateTime) :
    (⟨(formatTimestamp dt).data.take 10⟩ : String) = formatDate dt := by
  rw [show (formatTimestamp dt).data = _ from tsChars_explicit dt]
  rfl

/-! ## Store lemmas: the code's lookups on well-formed stores -/

theorem WFRow.length_three {r : Row} (h : WFRow r) : r.length = 3 := by
  obtain ⟨a, b, c, rfl, -, -⟩ := h
  rfl

theorem readAll_of_length_three {rows : List Row}
    (h : ∀ r ∈ rows, r.length = 3) : readAll rows = some rows := by
  cases rows with
  | nil => rfl
  | cons r rs =>
    have hall : (rs.all fun r2 => decide (r2.length = r.length)) = true := by
      simp only [List.all_eq_true, decide_eq_true_eq]
      intro r2 hr2
      rw [h r2 (List.mem_cons_of_mem _ hr2), h r (List.mem_cons_self _ _)]
    simp only [readAll, hall, if_true]

theorem readAll_of_WFStore {rows : List Row} (h : WFStore rows) :
    readAll rows = some rows :=
  readAll_of_length_three (fun r hr => (h r hr).length_three)

theorem seqsForDate_nil (d : String) : seqsForDate [] d = [] := rfl

theorem specMaxSeq_nil (d : String) : specMaxSeq [] d = 0 := rfl

theorem foldl_max_init_le (l : List Int) : ∀ b : Int, b ≤ l.foldl max b := by
  induction l with
  | nil => intro b; exact le_refl b
  | cons x xs ih =>
    intro b
    exact le_trans (le_max_left b x) (ih (max b x))

theorem specMaxSeq_nonneg (rows : List Row) (d : String) :
    0 ≤ specMaxSeq rows d :=
  foldl_max_init_le _ 0

theorem specMaxSeq_append_one (rows : List Row) (r : Row) (d : String) :
    specMaxSeq (rows ++ [r]) d =
      if rowDate? r = some d then
        match rowSeq? r with
        | some v => max (specMaxSeq rows d) v
        | none => specMaxSeq rows d
      else specMaxSeq rows d := by
  by_cases hdate : rowDate? r = some d
  · cases hv : rowSeq? r with
    | some v =>
      rw [if_pos hdate]
      unfold specMaxSeq seqsForDate
      rw [List.filterMap_append, List.foldl_append]
      simp [List.filterMap_cons, hdate, hv]
    | none =>
      rw [if_pos hdate]
      unfold specMaxSeq seqsForDate
      rw [List.filterMap_append, List.foldl_append]
      simp [List.filterMap_cons, hdate, hv]
  · rw [if_neg hdate]
    unfold specMaxSeq seqsForDate
    rw [List.filterMap_append, List.foldl_append]
    simp [List.filterMap_cons, hdate]

theorem specMaxSeq_eq_zero_of_no_date {rows : List Row} {d : String}
    (h : ∀ r ∈ rows, rowDate? r ≠ some d) : specMaxSeq rows d = 0 := by
  have : seqsForDate rows d = [] := by
    unfold seqsForDate
    rw [List.filterMap_eq_nil_iff]
    intro r hr
    rw [if_neg (h r hr)]
  unfold specMaxSeq
  rw [this]
  rfl

theorem dailyCountLoop_eq {rows : List Row} (d : String)
    (h : ∀ r ∈ rows, WFRow r) :
    ∀ acc, dailyCountLoop d rows acc =
      some ((seqsForDate rows d).foldl max acc) := by
  induction rows with
  | nil => intro acc; rfl
  | cons r rest ih =>
    intro acc
    obtain ⟨a, b, c, rfl, ⟨t, ht⟩, ⟨k, hk, hak⟩⟩ := h _ (List.mem_cons_self _ _)
    have hrest : ∀ r2 ∈ rest, WFRow r2 := fun r2 h2 => h r2 (List.mem_cons_of_mem _ h2)
    have hlen : (a : String).data.length = 25 := parseTimestamp_length ht
    have ht10 : take10 a = some ⟨a.data.take 10⟩ := by
      unfold take10; rw [if_neg (by omega)]
    have hdate : rowDate? [a, b, c] = some ⟨a.data.take 10⟩ := rfl
    have hseqs : seqsForDate ([a, b, c] :: rest) d =
        if (⟨a.data.take 10⟩ : String) = d then k :: seqsForDate rest d
        else seqsForDate rest d := by
      unfold seqsForDate
      rw [List.filterMap_cons]
      by_cases hd : (⟨a.data.take 10⟩ : String) = d
      · rw [if_pos hd]
        rw [show (if rowDate? [a, b, c] = some d then rowSeq? [a, b, c] else none) =
          some k from by
            rw [hdate, if_pos (by rw [hd])]
            simp [rowSeq?, List.get?, hak]]
      · rw [if_neg hd]
        rw [show (if rowDate? [a, b, c] = some d then rowSeq? [a, b, c] else none) =
          none from by rw [hdate, if_neg (by simpa using hd)]]
    unfold dailyCountLoop
    simp only [List.head?, ht10]
    rw [hseqs]
    by_cases hd : (⟨a.data.take 10⟩ : String) = d
    · rw [if_pos ⟨hd, by simp⟩, if_pos hd]
      have hget : ([a, b, c].get? 2).bind atoi = some k := by
        simp [List.get?, hak]
      rw [hget]
      dsimp only
      have hmax : (if k > acc then k else acc) = max acc k := by
        rcases le_or_lt k acc with hle | hlt
        · rw [if_neg (by omega), max_eq_left hle]
        · rw [if_pos hlt, max_eq_right hlt.le]
      rw [hmax, ih hrest]
      simp only [List.foldl_cons]
    · rw [if_neg (fun hc => hd hc.1), if_neg hd]
      exact ih hrest acc

theorem getDailyCount_eq_specMaxSeq {rows : List Row} {d : String}
    (h : WFStore rows) : getDailyCount rows d = some (specMaxSeq rows d) := by
  unfold getDailyCount
  rw [readAll_of_WFStore h]
  exact dailyCountLoop_eq d h 0

/-- The per-record duplicate criterion of `checkRecentDuplicate`:
same barcode in field 1, parsed timestamp strictly later than the
cutoff. -/
def dupMatch (barcodeID : String) (cutoff : Int) (r : Row) : Bool :=
  match rowTime? r with
  | some t => (r.get? 1 == some barcodeID) && decide (cutoff < t)
  | none => false

theorem duplicateLoop_eq {rows : List Row} (id : String) (cutoff : Int)
    (h : ∀ r ∈ rows, WFRow r) :
    duplicateLoop id cutoff rows = some (rows.any (dupMatch id cutoff)) := by
  induction rows with
  | nil => rfl
  | cons r rest ih =>
    obtain ⟨a, b, c, rfl, ⟨t, ht⟩, -⟩ := h _ (List.mem_cons_self _ _)
    have hrest : ∀ r2 ∈ rest, WFRow r2 := fun r2 h2 => h r2 (List.mem_cons_of_mem _ h2)
    unfold duplicateLoop
    simp only [List.head?, ht]
    have hget1 : [a, b, c].get? 1 = some b := rfl
    rw [hget1]
    dsimp only
    have hmatch : dupMatch id cutoff [a, b, c] =
        ((b == id) && decide (cutoff < t)) := by
      simp [dupMatch, rowTime?, List.head?, ht, List.get?]
    by_cases hcond : b = id ∧ cutoff < t
    · rw [if_pos hcond]
      rw [List.any_cons, hmatch]
      rw [show (b == id) = true from by simp [hcond.1],
        show decide (cutoff < t) = true from by simp [hcond.2]]
      rfl
    · rw [if_neg hcond, ih hrest]
      rw [List.any_cons, hmatch]
      congr 1
      rcases Decidable.not_and_iff_or_not.mp hcond with hb | htl
      · rw [show (b == id) = false from by simpa using hb]
        rfl
      · rw [show decide (cutoff < t) = false from by simpa using htl]
        simp

theorem checkRecentDuplicate_eq {rows : List Row} (id : String) (nowS : Int)
    (h : WFStore rows) :
    checkRecentDuplicate rows id nowS =
      some (rows.any (dupMatch id (nowS - 7200))) := by
  unfold checkRecentDuplicate
  rw [readAll_of_WFStore h]
  exact duplicateLoop_eq id _ h

theorem any_dupMatch_iff (rows : List Row) (id : String) (cutoff : Int) :
    rows.any (dupMatch id cutoff) = true ↔
      ∃ r ∈ rows, r.get? 1 = some id ∧ ∃ t, rowTime? r = some t ∧ cutoff < t := by
  rw [List.any_eq_true]
  constructor
  · rintro ⟨r, hr, hm⟩
    refine ⟨r, hr, ?_⟩
    unfold dupMatch at hm
    split at hm
    · rename_i t ht
      simp only [Bool.and_eq_true, beq_iff_eq, decide_eq_true_eq] at hm
      exact ⟨hm.1, t, ht, hm.2⟩
    · exact absurd hm (by simp)
  · rintro ⟨r, hr, hid, t, ht, hlt⟩
    refine ⟨r, hr, ?_⟩
    unfold dupMatch
    rw [ht]
    rw [List.get?_eq_getElem?] at hid
    simp [hid, hlt]

/-! ## Export filter lemmas -/

/-- The record-keeping criterion of the export filter: parsable timestamp
within the window. -/
def exportKeep (startS endS : Int) (r : Row) : Bool :=
  match rowTime? r with
  | some t => exportMatch startS endS t
  | none => false

theorem exportFilterLoop_eq {rows : List Row} (startS endS : Int)
    (h : ∀ r ∈ rows, r ≠ []) :
    exportFilterLoop startS endS rows =
      some (rows.filter (exportKeep startS endS)) := by
  induction rows with
  | nil => rfl
  | cons r rest ih =>
    have hrest : ∀ r2 ∈ rest, r2 ≠ [] := fun r2 h2 => h r2 (List.mem_cons_of_mem _ h2)
    obtain ⟨f0, rtail, rfl⟩ : ∃ f0 rtail, r = f0 :: rtail := by
      cases r with
      | nil => exact absurd rfl (h _ (List.mem_cons_self _ _))
      | cons f0 rtail => exact ⟨f0, rtail, rfl⟩
    unfold exportFilterLoop
    simp only [List.head?]
    have hkeep : exportKeep startS endS (f0 :: rtail) =
        match parseTimestamp f0 with
        | some t => exportMatch startS endS t
        | none => false := by
      simp [exportKeep, rowTime?, List.head?]
    cases hp : parseTimestamp f0 with
    | none =>
      rw [ih hrest, List.filter_cons]
      rw [show exportKeep startS endS (f0 :: rtail) = false from by rw [hkeep, hp]]
      simp
    | some t =>
      rw [ih hrest, List.filter_cons]
      rw [show exportKeep startS endS (f0 :: rtail) = exportMatch startS endS t from by
        rw [hkeep, hp]]
      by_cases hm : exportMatch startS endS t = true
      · simp [hm]
      · rw [Bool.not_eq_true] at hm
        simp [hm]

/-! ## Scan-session invariant and the per-scan sequence property -/

/-- The event dates are bounded below by `d` and non-decreasing (local
clock dates never step backwards during the session). -/
def DatesMono (d : String) : List ScanEvent → Prop
  | [] => True
  | (_, now) :: rest => d ≤ formatDate now ∧ DatesMono (formatDate now) rest

/-- Every record in the store carries a date prefix at most `d`. -/
def RowsDatedLE (rows : List Row) (d : String) : Prop :=
  ∀ r ∈ rows, ∀ s, rowDate? r = some s → s ≤ d

/-- The loop invariant of `runScanMode`: the store is well-formed, the
cached `dailyCount` equals the store's maximum sequence for the tracked
date, and no stored record is dated after the tracked date. -/
def ScanInv (st : ScanState) : Prop :=
  WFStore st.rows ∧ st.dailyCount = specMaxSeq st.rows st.currentDate ∧
    RowsDatedLE st.rows st.currentDate

/-- Claim C3's property, stated over a whole interactive session: every
accepted scan appends exactly one record whose sequence is one more than
the maximum stored sequence for the scan's local date (so 1 when no
record of that date is stored), and no loop iteration panics. -/
def SeqSpecHolds : ScanState → List ScanEvent → Prop
  | _, [] => True
  | st, (input, now) :: rest =>
    if input = "exit" then True
    else
      match scanStep st input now with
      | none => False
      | some st2 =>
        (isNumericStr input = true →
          checkRecentDuplicate st.rows input (toSecs now) = some false →
          st2.rows = st.rows ++
            [[formatTimestamp now, input,
              intToDecString (specMaxSeq st.rows (formatDate now) + 1)]]) ∧
        SeqSpecHolds st2 rest

theorem DatesMono_mono {d d' : String} {events : List ScanEvent}
    (hle : d' ≤ d) (h : DatesMono d events) : DatesMono d' events := by
  cases events with
  | nil => trivial
  | cons e rest =>
    obtain ⟨h1, h2⟩ := h
    exact ⟨le_trans hle h1, h2⟩

theorem WFRow_newRecord {now : DateTime} (input : String) {k : Int}
    (hv : ValidDT now) (hk : 0 < k) :
    WFRow [formatTimestamp now, input, intToDecString k] :=
  ⟨_, _, _, rfl, ⟨toSecs now, parseTimestamp_formatTimestamp now hv⟩,
    ⟨k, hk, atoi_intToDecString_nonneg k hk.le⟩⟩

theorem rowDate?_newRecord (now : DateTime) (b c : String) :
    rowDate? [formatTimestamp now, b, c] = some (formatDate now) := by
  unfold rowDate?
  show some (⟨(formatTimestamp now).data.take 10⟩ : String) = some (formatDate now)
  rw [dataTake10_formatTimestamp]

theorem rowSeq?_newRecord (a b : String) (k : Int) (hk : 0 ≤ k) :
    rowSeq? [a, b, intToDecString k] = some k := by
  unfold rowSeq?
  have : [a, b, intToDecString k].get? 2 = some (intToDecString k) := rfl
  rw [this, Option.some_bind, atoi_intToDecString_nonneg k hk]

theorem RowsDatedLE_append {rows : List Row} {r : Row} {d : String}
    (h : RowsDatedLE rows d) (hr : ∀ s, rowDate? r = some s → s ≤ d) :
    RowsDatedLE (rows ++ [r]) d := by
  intro r2 hr2 s hs
  rcases List.mem_append.mp hr2 with hmem | hmem
  · exact h r2 hmem s hs
  · rw [List.mem_singleton.mp hmem] at hs
    exact hr s hs

theorem WFStore_append {rows : List Row} {r : Row}
    (h : WFStore rows) (hr : WFRow r) : WFStore (rows ++ [r]) := by
  intro r2 hr2
  rcases List.mem_append.mp hr2 with hmem | hmem
  · exact h r2 hmem
  · rw [List.mem_singleton.mp hmem]
    exact hr

theorem scanInv_seqSpec (events : List ScanEvent) :
    ∀ st : ScanState, ScanInv st → DatesMono st.currentDate events →
      (∀ e ∈ events, ValidDT e.2) → SeqSpecHolds st events := by
  induction events with
  | nil => intro st _ _ _; trivial
  | cons ev rest ih =>
    obtain ⟨input, now⟩ := ev
    intro st hInv hMono hValid
    obtain ⟨hWF, hCount, hDated⟩ := hInv
    obtain ⟨hlb, hMonoRest⟩ := hMono
    have hValidRest : ∀ e ∈ rest, ValidDT e.2 :=
      fun e he => hValid e (List.mem_cons_of_mem _ he)
    have hValidNow : ValidDT now := hValid (input, now) (List.mem_cons_self _ _)
    unfold SeqSpecHolds
    by_cases hexit : input = "exit"
    · rw [if_pos hexit]
      trivial
    rw [if_neg hexit]
    by_cases hnum : isNumericStr input = true
    swap
    · -- non-numeric input: re-prompt, state unchanged
      have hstep : scanStep st input now = some st := by
        unfold scanStep
        rw [if_neg hnum]
      rw [hstep]
      refine ⟨fun h1 => absurd h1 hnum, ?_⟩
      exact ih st ⟨hWF, hCount, hDated⟩ (DatesMono_mono hlb hMonoRest) hValidRest
    cases hany : st.rows.any (dupMatch input (toSecs now - 7200)) with
    | true =>
      -- duplicate within the window: entry skipped, state unchanged
      have hcrd : checkRecentDuplicate st.rows input (toSecs now) = some true := by
        rw [checkRecentDuplicate_eq input (toSecs now) hWF, hany]
      have hstep : scanStep st input now = some st := by
        unfold scanStep
        rw [if_pos hnum, hcrd]
      rw [hstep]
      refine ⟨fun _ hfalse => absurd (hcrd.symm.trans hfalse) (by simp), ?_⟩
      exact ih st ⟨hWF, hCount, hDated⟩ (DatesMono_mono hlb hMonoRest) hValidRest
    | false =>
      -- accepted scan: one record appended
      have hcrd : checkRecentDuplicate st.rows input (toSecs now) = some false := by
        rw [checkRecentDuplicate_eq input (toSecs now) hWF, hany]
      have hnonneg : 0 ≤ specMaxSeq st.rows st.currentDate :=
        specMaxSeq_nonneg _ _
      by_cases hdate : formatDate now ≠ st.currentDate
      · -- date rollover: counter reset, and no stored record bears the new date
        have hlt : st.currentDate < formatDate now :=
          lt_of_le_of_ne hlb (fun he => hdate he.symm)
        have hzero : specMaxSeq st.rows (formatDate now) = 0 := by
          apply specMaxSeq_eq_zero_of_no_date
          intro r hr hcontra
          exact absurd (hDated r hr _ hcontra) (not_le.mpr hlt)
        have hstep : scanStep st input now = some
            ⟨st.rows ++ [[formatTimestamp now, input, intToDecString 1]],
             formatDate now, 1⟩ := by
          unfold scanStep
          rw [if_pos hnum, hcrd]
          dsimp only
          rw [if_pos hdate, if_pos hdate]
          norm_num
        rw [hstep]
        constructor
        · intro _ _
          rw [hzero]
          norm_num
        · apply ih
          · refine ⟨WFStore_append hWF (WFRow_newRecord input hValidNow one_pos), ?_, ?_⟩
            · show (1 : Int) = specMaxSeq _ (formatDate now)
              rw [specMaxSeq_append_one, if_pos (rowDate?_newRecord now input _)]
              rw [rowSeq?_newRecord _ _ 1 one_pos.le]
              rw [hzero]
              rfl
            · refine RowsDatedLE_append ?_ ?_
              · intro r hr s hs
                exact le_trans (hDated r hr s hs) hlb
              · intro s hs
                rw [rowDate?_newRecord] at hs
                exact le_of_eq (Option.some_injective _ hs).symm
          · exact hMonoRest
          · exact hValidRest
      · -- same date: counter increments from the cached value
        rw [not_not] at hdate
        have hstep : scanStep st input now = some
            ⟨st.rows ++ [[formatTimestamp now, input,
                intToDecString (st.dailyCount + 1)]],
             st.currentDate, st.dailyCount + 1⟩ := by
          unfold scanStep
          rw [if_pos hnum, hcrd]
          dsimp only
          rw [if_neg (by rw [hdate]; exact fun h => h rfl),
            if_neg (by rw [hdate]; exact fun h => h rfl)]
        rw [hstep]
        constructor
        · intro _ _
          rw [hdate, hCount]
        · apply ih
          · have hkpos : 0 < st.dailyCount + 1 := by omega
            refine ⟨WFStore_append hWF (WFRow_newRecord input hValidNow hkpos), ?_, ?_⟩
            · show st.dailyCount + 1 = specMaxSeq _ st.currentDate
              rw [specMaxSeq_append_one,
                if_pos (by rw [rowDate?_newRecord, hdate])]
              rw [rowSeq?_newRecord _ _ _ hkpos.le]
              rw [hCount]
              dsimp only
              rw [max_eq_right (by omega)]
            · refine RowsDatedLE_append hDated ?_
              intro s hs
              rw [rowDate?_newRecord] at hs
              rw [← (Option.some_injective _ hs), hdate]
          · show DatesMono st.currentDate rest
            rw [← hdate]
            exact hMonoRest
          · exact hValidRest


/-! ## Loop step equations, per-row skipping (claim C6), and the export pipeline -/

theorem duplicateLoop_cons (id : String) (cutoff : Int) (f0 : String)
    (rtail : List String) (rest : List Row) :
    duplicateLoop id cutoff ((f0 :: rtail) :: rest) =
      match parseTimestamp f0 with
      | none => duplicateLoop id cutoff rest
      | some recordTime =>
        match (f0 :: rtail).get? 1 with
        | none => none
        | some f1 =>
          if f1 = id ∧ cutoff < recordTime then some true
          else duplicateLoop id cutoff rest := by
  conv_lhs => unfold duplicateLoop
  rfl

theorem exportFilterLoop_cons (a b : Int) (f0 : String)
    (rtail : List String) (rest : List Row) :
    exportFilterLoop a b ((f0 :: rtail) :: rest) =
      match parseTimestamp f0 with
      | none => exportFilterLoop a b rest
      | some recordTime =>
        if exportMatch a b recordTime then
          (exportFilterLoop a b rest).map (fun l => (f0 :: rtail) :: l)
        else exportFilterLoop a b rest := by
  conv_lhs => unfold exportFilterLoop
  rfl

theorem duplicateLoop_filter_parse (id : String) (cutoff : Int) :
    ∀ rows : List Row, (∀ r ∈ rows, r ≠ []) →
      duplicateLoop id cutoff rows =
        duplicateLoop id cutoff (rows.filter (fun r => (rowTime? r).isSome)) := by
  intro rows
  induction rows with
  | nil => intro _; rfl
  | cons r rest ih =>
    intro h
    have hrest : ∀ r2 ∈ rest, r2 ≠ [] := fun r2 h2 => h r2 (List.mem_cons_of_mem _ h2)
    obtain ⟨f0, rtail, rfl⟩ : ∃ f0 rtail, r = f0 :: rtail := by
      cases r with
      | nil => exact absurd rfl (h _ (List.mem_cons_self _ _))
      | cons f0 rtail => exact ⟨f0, rtail, rfl⟩
    have hrt : rowTime? (f0 :: rtail) = parseTimestamp f0 := by
      simp [rowTime?, List.head?]
    rw [List.filter_cons]
    cases hp : parseTimestamp f0 with
    | none =>
      rw [if_neg (by simp [hrt, hp])]
      rw [duplicateLoop_cons, hp, ih hrest]
    | some t =>
      rw [if_pos (by simp [hrt, hp])]
      rw [duplicateLoop_cons, duplicateLoop_cons, hp]
      dsimp only
      cases hget : (f0 :: rtail).get? 1 with
      | none => rfl
      | some f1 =>
        dsimp only
        by_cases hcond : f1 = id ∧ cutoff < t
        · rw [if_pos hcond, if_pos hcond]
        · rw [if_neg hcond, if_neg hcond, ih hrest]

theorem exportFilterLoop_filter_parse (a b : Int) :
    ∀ rows : List Row, (∀ r ∈ rows, r ≠ []) →
      exportFilterLoop a b rows =
        exportFilterLoop a b (rows.filter (fun r => (rowTime? r).isSome)) := by
  intro rows
  induction rows with
  | nil => intro _; rfl
  | cons r rest ih =>
    intro h
    have hrest : ∀ r2 ∈ rest, r2 ≠ [] := fun r2 h2 => h r2 (List.mem_cons_of_mem _ h2)
    obtain ⟨f0, rtail, rfl⟩ : ∃ f0 rtail, r = f0 :: rtail := by
      cases r with
      | nil => exact absurd rfl (h _ (List.mem_cons_self _ _))
      | cons f0 rtail => exact ⟨f0, rtail, rfl⟩
    have hrt : rowTime? (f0 :: rtail) = parseTimestamp f0 := by
      simp [rowTime?, List.head?]
    rw [List.filter_cons]
    cases hp : parseTimestamp f0 with
    | none =>
      rw [if_neg (by simp [hrt, hp])]
      rw [exportFilterLoop_cons, hp, ih hrest]
    | some t =>
      rw [if_pos (by simp [hrt, hp])]
      rw [exportFilterLoop_cons, exportFilterLoop_cons, hp]
      dsimp only
      rw [ih hrest]

theorem runExportMode_eq (rows : List Row) (s e : String) (ds de : Int)
    (hne : ∀ r ∈ rows, r ≠ []) (hread : readAll rows = some rows)
    (hs : parseDate s = some ds)
    (hend : (e = "" ∧ de = ds) ∨ (e ≠ "" ∧ parseDate e = some de)) :
    runExportMode rows s e = some
      (if (rows.filter (exportKeep (86400 * ds) (86400 * de + 86400 - 1))).isEmpty
       then ExportOutcome.noRecords
       else ExportOutcome.exported
         (exportFileName s e
           (rows.filter (exportKeep (86400 * ds) (86400 * de + 86400 - 1))).length)
         (rows.filter (exportKeep (86400 * ds) (86400 * de + 86400 - 1)))) := by
  unfold runExportMode
  rw [hread]
  rw [hs]
  dsimp only
  rcases hend with ⟨he, hde⟩ | ⟨he, hpe⟩
  · subst hde
    rw [if_pos he]
    dsimp only
    rw [exportFilterLoop_eq _ _ hne]
    rfl
  · rw [if_neg he, hpe]
    rw [show Option.map (fun d => 86400 * d + 86400 - 1) (some de) =
      some (86400 * de + 86400 - 1) from rfl]
    dsimp only
    rw [exportFilterLoop_eq _ _ hne]
    rfl

theorem exportMatch_iff (a b t : Int) :
    exportMatch a b t = true ↔ a ≤ t ∧ t < b := by
  unfold exportMatch
  simp only [Bool.and_eq_true, Bool.or_eq_true, decide_eq_true_eq]
  omega

theorem mem_filter_exportKeep (rows : List Row) (a b : Int) (r : Row) :
    r ∈ rows.filter (exportKeep a b) ↔
      r ∈ rows ∧ ∃ t, rowTime? r = some t ∧ a ≤ t ∧ t < b := by
  rw [List.mem_filter]
  constructor
  · rintro ⟨hmem, hkeep⟩
    refine ⟨hmem, ?_⟩
    unfold exportKeep at hkeep
    split at hkeep
    · rename_i t ht
      exact ⟨t, ht, (exportMatch_iff a b t).mp hkeep⟩
    · exact absurd hkeep (by simp)
  · rintro ⟨hmem, t, ht, hrange⟩
    refine ⟨hmem, ?_⟩
    unfold exportKeep
    rw [ht]
    exact (exportMatch_iff a b t).mpr hrange

/-! ## A shared step lemma for accepted scans -/

theorem scanStep_accepted (st : ScanState) (input : String) (now : DateTime)
    (hnum : isNumericStr input = true)
    (hcrd : checkRecentDuplicate st.rows input (toSecs now) = some false) :
    scanStep st input now = some
      ⟨st.rows ++ [[formatTimestamp now, input,
          intToDecString ((if formatDate now ≠ st.currentDate then 0
            else st.dailyCount) + 1)]],
       if formatDate now ≠ st.currentDate then formatDate now else st.currentDate,
       (if formatDate now ≠ st.currentDate then 0 else st.dailyCount) + 1⟩ := by
  unfold scanStep
  rw [if_pos hnum, hcrd]

/-! ## The claims -/

/-- **C1, counterexample.**  A record timestamped exactly 23:59:59 local
time of the end day — `2024-10-26T23:59:59+00:00`, the last second of the
end date `2024-10-26` (day number 20022) — is NOT included in the export
for `start=2024-10-24`, `end=2024-10-26`: the program reports "No records
found" and creates no file, contradicting the claim that every record
within the end day, including one at exactly 23:59:59, is exported. -/
theorem c1_boundary_counterexample :
    runExportMode [["2024-10-26T23:59:59+00:00", "123", "1"]]
      "2024-10-24" "2024-10-26" = some ExportOutcome.noRecords ∧
    parseDate "2024-10-26" = some 20022 ∧
    parseTimestamp "2024-10-26T23:59:59+00:00" = some (86400 * 20022 + 86399) := by
  decide

/-- **C1 (amended).**  For every export with start date `s` (day number
`ds`) and end date `e` (day number `de`, defaulting to `ds` when absent),
a stored record matches the filter iff its parsed timestamp `t` satisfies
`86400 * ds ≤ t` (at or after local midnight of the start day) and
`t < 86400 * de + 86399` (STRICTLY before 23:59:59 local time of the end
day) — a record at exactly 23:59:59 of the end day is excluded. -/
theorem c1_export_window_amended (rows : List Row) (s e : String) (ds de : Int)
    (hne : ∀ r ∈ rows, r ≠ []) (hread : readAll rows = some rows)
    (hs : parseDate s = some ds)
    (hend : (e = "" ∧ de = ds) ∨ (e ≠ "" ∧ parseDate e = some de)) :
    ∃ out : List Row, runExportMode rows s e = some
        (if out.isEmpty then ExportOutcome.noRecords
         else ExportOutcome.exported (exportFileName s e out.length) out) ∧
      ∀ r, r ∈ out ↔ r ∈ rows ∧ ∃ t, rowTime? r = some t ∧
        86400 * ds ≤ t ∧ t < 86400 * de + 86399 := by
  refine ⟨rows.filter (exportKeep (86400 * ds) (86400 * de + 86400 - 1)), ?_, ?_⟩
  · exact runExportMode_eq rows s e ds de hne hread hs hend
  · intro r
    have heq : (86400 : Int) * de + 86399 = 86400 * de + 86400 - 1 := by ring
    rw [heq]
    exact mem_filter_exportKeep rows (86400 * ds) (86400 * de + 86400 - 1) r

theorem c1_export_window_amended_witness :
    ∃ out : List Row, runExportMode [["2024-10-26T23:59:58+00:00", "123", "1"]]
        "2024-10-24" "2024-10-26" = some
        (if out.isEmpty then ExportOutcome.noRecords
         else ExportOutcome.exported
           (exportFileName "2024-10-24" "2024-10-26" out.length) out) ∧
      ∀ r, r ∈ out ↔ r ∈ [["2024-10-26T23:59:58+00:00", "123", "1"]] ∧
        ∃ t, rowTime? r = some t ∧
          86400 * 20020 ≤ t ∧ t < 86400 * 20022 + 86399 :=
  c1_export_window_amended [["2024-10-26T23:59:58+00:00", "123", "1"]]
    "2024-10-24" "2024-10-26" 20020 20022
    (by decide) (by decide) (by decide) (Or.inr ⟨by decide, by decide⟩)

/-- **C2.**  In `checkin.go` the two modes do NOT operate on the same
store file: Scan Mode opens and appends to `scans.csv` while Export Mode
opens and reads `scanned_barcodes.csv` — an export can never see scanned
records.  (In the `part_000` variant both modes use `scans.csv`, which is
the behaviour the claim and the spec describe.) -/
theorem c2_store_file_mismatch :
    scanStoreFile ≠ exportStoreFile ∧
    scanStoreFilePartZero = exportStoreFilePartZero := by
  decide

/-- **C8.**  For every export whose date filter matches zero stored
records, the program takes the "No records found" return path and creates
no output file (only the `exported` outcome creates a file). -/
theorem c8_zero_matches (rows : List Row) (s e : String) (ds de : Int)
    (hne : ∀ r ∈ rows, r ≠ []) (hread : readAll rows = some rows)
    (hs : parseDate s = some ds)
    (hend : (e = "" ∧ de = ds) ∨ (e ≠ "" ∧ parseDate e = some de))
    (hzero : rows.filter (exportKeep (86400 * ds) (86400 * de + 86400 - 1)) = []) :
    runExportMode rows s e = some ExportOutcome.noRecords := by
  rw [runExportMode_eq rows s e ds de hne hread hs hend, hzero]
  rfl

theorem c8_zero_matches_witness :
    runExportMode [["2024-10-20T10:00:00+00:00", "123", "1"]]
      "2024-10-24" "2024-10-26" = some ExportOutcome.noRecords :=
  c8_zero_matches [["2024-10-20T10:00:00+00:00", "123", "1"]]
    "2024-10-24" "2024-10-26" 20020 20022
    (by decide) (by decide) (by decide) (Or.inr ⟨by decide, by decide⟩)
    (by decide)

/-- **C9.**  For every export with at least one match, the matching
records are written in their original store order (the output is the
order-preserving sublist of the store selected by the filter), and the
output file is named `export_<start>_<count>_records.csv` when no end
date is given and `export_<start>_to_<end>_<count>_records.csv` when one
is, where `<count>` is the number of matching records. -/
theorem c9_export_order_and_name (rows : List Row) (s e : String)
    (ds de : Int) (out : List Row)
    (hne : ∀ r ∈ rows, r ≠ []) (hread : readAll rows = some rows)
    (hs : parseDate s = some ds)
    (hend : (e = "" ∧ de = ds) ∨ (e ≠ "" ∧ parseDate e = some de))
    (hout : out = rows.filter (exportKeep (86400 * ds) (86400 * de + 86400 - 1)))
    (hsome : out ≠ []) :
    runExportMode rows s e =
      some (ExportOutcome.exported (exportFileName s e out.length) out) ∧
    out.Sublist rows ∧
    exportFileName s e out.length =
      (if e = "" then
        "export_" ++ s ++ "_" ++ natToDecString out.length ++ "_records.csv"
       else
        "export_" ++ s ++ "_to_" ++ e ++ "_" ++ natToDecString out.length
          ++ "_records.csv") := by
  refine ⟨?_, ?_, rfl⟩
  · rw [runExportMode_eq rows s e ds de hne hread hs hend, ← hout]
    rw [if_neg (by simpa using hsome)]
  · rw [hout]
    exact List.filter_sublist rows

theorem c9_export_order_and_name_witness :
    runExportMode
        [["2024-10-23T10:00:00+00:00", "999", "1"],
         ["2024-10-25T10:00:00+00:00", "123", "1"],
         ["2024-10-26T11:00:00+00:00", "456", "2"]]
        "2024-10-24" "2024-10-26" =
      some (ExportOutcome.exported
        (exportFileName "2024-10-24" "2024-10-26" 2)
        [["2024-10-25T10:00:00+00:00", "123", "1"],
         ["2024-10-26T11:00:00+00:00", "456", "2"]]) ∧
    ([["2024-10-25T10:00:00+00:00", "123", "1"],
      ["2024-10-26T11:00:00+00:00", "456", "2"]] : List Row).Sublist
      [["2024-10-23T10:00:00+00:00", "999", "1"],
       ["2024-10-25T10:00:00+00:00", "123", "1"],
       ["2024-10-26T11:00:00+00:00", "456", "2"]] ∧
    exportFileName "2024-10-24" "2024-10-26" 2 =
      (if ("2024-10-26" : String) = "" then
        "export_" ++ "2024-10-24" ++ "_" ++ natToDecString 2 ++ "_records.csv"
       else
        "export_" ++ "2024-10-24" ++ "_to_" ++ "2024-10-26" ++ "_"
          ++ natToDecString 2 ++ "_records.csv") :=
  c9_export_order_and_name
    [["2024-10-23T10:00:00+00:00", "999", "1"],
     ["2024-10-25T10:00:00+00:00", "123", "1"],
     ["2024-10-26T11:00:00+00:00", "456", "2"]]
    "2024-10-24" "2024-10-26" 20020 20022
    [["2024-10-25T10:00:00+00:00", "123", "1"],
     ["2024-10-26T11:00:00+00:00", "456", "2"]]
    (by decide) (by decide) (by decide) (Or.inr ⟨by decide, by decide⟩)
    (by decide) (by decide)

theorem rowTime?_newRecord (now : DateTime) (b c : String) (hv : ValidDT now) :
    rowTime? [formatTimestamp now, b, c] = some (toSecs now) := by
  unfold rowTime?
  show parseTimestamp (formatTimestamp now) = some (toSecs now)
  exact parseTimestamp_formatTimestamp now hv

theorem dupMatch_newRecord (now : DateTime) (input c : String) (cutoff : Int)
    (hv : ValidDT now) :
    dupMatch input cutoff [formatTimestamp now, input, c] =
      decide (cutoff < toSecs now) := by
  unfold dupMatch
  rw [rowTime?_newRecord now input c hv]
  have hget : ([formatTimestamp now, input, c].get? 1) = some input := rfl
  rw [hget]
  simp

/-- **C3, counterexample.**  The appended sequence is NOT always
`1 + max(stored sequences of today's date)`: with a store already holding
a record dated 2024-10-26 with sequence 7, a scan-mode session started
late on 2024-10-25 that accepts a scan just after midnight appends
sequence 1 — the cached counter was reset to 0 at the date change and
never re-read from the store — while the claim's formula gives 8. -/
theorem c3_sequence_counterexample :
    runScanMode [["2024-10-26T01:00:00+00:00", "111", "7"]]
      ⟨2024, 10, 25, 23, 50, 0⟩ [("222", ⟨2024, 10, 26, 0, 10, 0⟩)] =
    some ⟨[["2024-10-26T01:00:00+00:00", "111", "7"],
           ["2024-10-26T00:10:00+00:00", "222", "1"]], "2024-10-26", 1⟩ ∧
    specMaxSeq [["2024-10-26T01:00:00+00:00", "111", "7"]] "2024-10-26" = 7 ∧
    intToDecString 1 ≠ intToDecString (7 + 1) := by
  decide

/-- **C3 (amended).**  For every accepted scan of a digit-only barcode,
the appended record carries sequence `1 + max(stored sequence values of
the scan's local date)` (so 1 when none exist), PROVIDED the store at
startup is well-formed with no record dated after the startup local date
and the scans' local dates never decrease during the session; moreover no
loop iteration panics.  (Without those conditions the sequence is 1 plus
an in-process cached counter that is only reset at an observed date
change, as the counterexample shows.) -/
theorem c3_sequence_amended (rows : List Row) (startNow : DateTime)
    (events : List ScanEvent)
    (hWF : WFStore rows) (hDated : RowsDatedLE rows (formatDate startNow))
    (hMono : DatesMono (formatDate startNow) events)
    (hValid : ∀ ev ∈ events, ValidDT ev.2) :
    ∃ st0, scanInit rows startNow = some st0 ∧ SeqSpecHolds st0 events := by
  refine ⟨⟨rows, formatDate startNow, specMaxSeq rows (formatDate startNow)⟩, ?_, ?_⟩
  · unfold scanInit
    rw [getDailyCount_eq_specMaxSeq hWF]
    rfl
  · exact scanInv_seqSpec events _ ⟨hWF, rfl, hDated⟩ hMono hValid

theorem c3_sequence_amended_witness :
    ∃ st0, scanInit [["2024-10-25T08:00:00+00:00", "111", "3"]]
        ⟨2024, 10, 25, 9, 0, 0⟩ = some st0 ∧
      SeqSpecHolds st0 [("222", ⟨2024, 10, 25, 9, 5, 0⟩)] := by
  refine c3_sequence_amended
    [["2024-10-25T08:00:00+00:00", "111", "3"]] ⟨2024, 10, 25, 9, 0, 0⟩
    [("222", ⟨2024, 10, 25, 9, 5, 0⟩)] ?_ ?_ ⟨le_of_eq (by decide), trivial⟩ ?_
  · intro r hr
    rw [List.mem_singleton] at hr
    subst hr
    exact ⟨_, _, _, rfl, ⟨1729843200, by decide⟩, ⟨3, by decide, by decide⟩⟩
  · intro r hr sd hs
    rw [List.mem_singleton] at hr
    subst hr
    rw [show rowDate? ["2024-10-25T08:00:00+00:00", "111", "3"] =
      some "2024-10-25" from by decide] at hs
    injection hs with h2
    rw [← h2]
    exact le_of_eq (by decide)
  · intro ev hev
    rw [List.mem_singleton] at hev
    subst hev
    decide

/-- **C4, counterexample.**  The daily count is NOT recomputed from a
full re-parse of the file on every accepted scan: after the local clock
steps back across midnight (2024-10-26 back to 2024-10-25), the code
appends sequence "1" from its reset in-memory counter, while a full
re-read of the store for 2024-10-25 at that iteration yields maximum 4,
so a recomputation would have appended "5". -/
theorem c4_reread_counterexample :
    runScanMode [["2024-10-25T08:00:00+00:00", "500", "4"]]
      ⟨2024, 10, 25, 22, 0, 0⟩
      [("600", ⟨2024, 10, 26, 0, 30, 0⟩), ("700", ⟨2024, 10, 25, 23, 0, 0⟩)] =
    some ⟨[["2024-10-25T08:00:00+00:00", "500", "4"],
           ["2024-10-26T00:30:00+00:00", "600", "1"],
           ["2024-10-25T23:00:00+00:00", "700", "1"]], "2024-10-25", 1⟩ ∧
    getDailyCount
      [["2024-10-25T08:00:00+00:00", "500", "4"],
       ["2024-10-26T00:30:00+00:00", "600", "1"]] "2024-10-25" = some 4 ∧
    ("1" : String) ≠ intToDecString (4 + 1) := by
  decide

/-- **C4 (amended).**  On every accepted scan the DUPLICATE check is
recomputed from the full current store — it sees the record appended by
the immediately preceding iteration, so a same-barcode scan within the
window is rejected against fresh data — while the DAILY COUNT is not
re-read: the appended sequence comes from the cached `dailyCount`
(incremented, and reset to 0 only at an observed date change);
`getDailyCount` performs its full re-read only once, at scan-mode
startup. -/
theorem c4_reread_and_cache_amended (st : ScanState) (input : String)
    (now1 now2 : DateTime)
    (hWF : WFStore st.rows) (hv1 : ValidDT now1)
    (hnum : isNumericStr input = true)
    (hnodup : st.rows.any (dupMatch input (toSecs now1 - 7200)) = false)
    (hwin : toSecs now2 - 7200 < toSecs now1)
    (hnn : 0 ≤ st.dailyCount) :
    ∃ st2, scanStep st input now1 = some st2 ∧
      st2.rows = st.rows ++ [[formatTimestamp now1, input,
        intToDecString ((if formatDate now1 ≠ st.currentDate then 0
          else st.dailyCount) + 1)]] ∧
      st2.dailyCount =
        (if formatDate now1 ≠ st.currentDate then 0 else st.dailyCount) + 1 ∧
      checkRecentDuplicate st2.rows input (toSecs now2) = some true := by
  have hcrd : checkRecentDuplicate st.rows input (toSecs now1) = some false := by
    rw [checkRecentDuplicate_eq input (toSecs now1) hWF, hnodup]
  have hkpos : 0 < (if formatDate now1 ≠ st.currentDate then 0
      else st.dailyCount) + 1 := by
    split <;> omega
  refine ⟨_, scanStep_accepted st input now1 hnum hcrd, rfl, rfl, ?_⟩
  have hWF2 : WFStore (st.rows ++ [[formatTimestamp now1, input,
      intToDecString ((if formatDate now1 ≠ st.currentDate then 0
        else st.dailyCount) + 1)]]) :=
    WFStore_append hWF (WFRow_newRecord input hv1 hkpos)
  show checkRecentDuplicate _ input (toSecs now2) = some true
  rw [checkRecentDuplicate_eq input (toSecs now2) hWF2]
  rw [List.any_append]
  rw [show ([[formatTimestamp now1, input,
      intToDecString ((if formatDate now1 ≠ st.currentDate then 0
        else st.dailyCount) + 1)]].any
      (dupMatch input (toSecs now2 - 7200))) = true from by
    rw [List.any_cons, List.any_nil,
      dupMatch_newRecord now1 input _ (toSecs now2 - 7200) hv1]
    simp [hwin]]
  rw [Bool.or_true]

theorem c4_reread_and_cache_amended_witness :
    ∃ st2, scanStep ⟨[["2024-10-25T08:00:00+00:00", "111", "3"]],
        "2024-10-25", 3⟩ "222" ⟨2024, 10, 25, 9, 0, 0⟩ = some st2 ∧
      st2.rows = [["2024-10-25T08:00:00+00:00", "111", "3"]] ++
        [["2024-10-25T09:00:00+00:00", "222",
          intToDecString ((if formatDate ⟨2024, 10, 25, 9, 0, 0⟩ ≠ "2024-10-25"
            then 0 else 3) + 1)]] ∧
      st2.dailyCount = (if formatDate ⟨2024, 10, 25, 9, 0, 0⟩ ≠ "2024-10-25"
        then 0 else 3) + 1 ∧
      checkRecentDuplicate st2.rows "222"
        (toSecs ⟨2024, 10, 25, 10, 0, 0⟩) = some true := by
  refine c4_reread_and_cache_amended
    ⟨[["2024-10-25T08:00:00+00:00", "111", "3"]], "2024-10-25", 3⟩
    "222" ⟨2024, 10, 25, 9, 0, 0⟩ ⟨2024, 10, 25, 10, 0, 0⟩
    ?_ (by decide) (by decide) (by decide) (by decide) (by decide)
  intro r hr
  rw [List.mem_singleton] at hr
  subst hr
  exact ⟨_, _, _, rfl, ⟨1729843200, by decide⟩, ⟨3, by decide, by decide⟩⟩

/-- **C5.**  A scanned digit-only barcode is rejected as a duplicate
(state unchanged, nothing appended) iff some stored record carries an
equal barcode in field 1 and a parsed timestamp strictly later than the
scan time minus 2 hours.  Consequently, for a barcode never seen before:
the first scan appends exactly one record, a second scan of the same
barcode strictly within the 2-hour window appends nothing, and a second
scan at or beyond the window appends a second record. -/
theorem c5_duplicate_window (st : ScanState) (input : String)
    (now1 now2 : DateTime)
    (hWF : WFStore st.rows) (hnum : isNumericStr input = true)
    (hv1 : ValidDT now1) (hnn : 0 ≤ st.dailyCount) :
    (scanStep st input now1 = some st ↔
      ∃ r ∈ st.rows, r.get? 1 = some input ∧
        ∃ t, rowTime? r = some t ∧ toSecs now1 - 7200 < t) ∧
    ((∀ r ∈ st.rows, r.get? 1 ≠ some input) →
      ∃ st1, scanStep st input now1 = some st1 ∧
        st1.rows.length = st.rows.length + 1 ∧
        (toSecs now2 - 7200 < toSecs now1 →
          scanStep st1 input now2 = some st1) ∧
        (¬(toSecs now2 - 7200 < toSecs now1) →
          ∃ st2, scanStep st1 input now2 = some st2 ∧
            st2.rows.length = st.rows.length + 2)) := by
  have hiff := any_dupMatch_iff st.rows input (toSecs now1 - 7200)
  constructor
  · cases hany : st.rows.any (dupMatch input (toSecs now1 - 7200)) with
    | true =>
      have hcrd : checkRecentDuplicate st.rows input (toSecs now1) = some true := by
        rw [checkRecentDuplicate_eq input (toSecs now1) hWF, hany]
      have hstep : scanStep st input now1 = some st := by
        unfold scanStep
        rw [if_pos hnum, hcrd]
      exact ⟨fun _ => hiff.mp hany, fun _ => hstep⟩
    | false =>
      have hcrd : checkRecentDuplicate st.rows input (toSecs now1) = some false := by
        rw [checkRecentDuplicate_eq input (toSecs now1) hWF, hany]
      have hstep := scanStep_accepted st input now1 hnum hcrd
      constructor
      · intro hcontra
        exfalso
        rw [hstep] at hcontra
        have hst := Option.some.inj hcontra
        have hlen := congrArg (fun s : ScanState => s.rows.length) hst
        simp at hlen
      · intro hex
        exfalso
        have : st.rows.any (dupMatch input (toSecs now1 - 7200)) = true :=
          hiff.mpr hex
        rw [hany] at this
        exact absurd this (by simp)
  · intro hfresh
    have hany : st.rows.any (dupMatch input (toSecs now1 - 7200)) = false := by
      cases h2 : st.rows.any (dupMatch input (toSecs now1 - 7200)) with
      | false => rfl
      | true =>
        obtain ⟨r, hr, hid, -⟩ := hiff.mp h2
        exact absurd hid (hfresh r hr)
    have hcrd : checkRecentDuplicate st.rows input (toSecs now1) = some false := by
      rw [checkRecentDuplicate_eq input (toSecs now1) hWF, hany]
    have hkpos : 0 < (if formatDate now1 ≠ st.currentDate then 0
        else st.dailyCount) + 1 := by
      split <;> omega
    have hWF2 : WFStore (st.rows ++ [[formatTimestamp now1, input,
        intToDecString ((if formatDate now1 ≠ st.currentDate then 0
          else st.dailyCount) + 1)]]) :=
      WFStore_append hWF (WFRow_newRecord input hv1 hkpos)
    refine ⟨_, scanStep_accepted st input now1 hnum hcrd,
      by simp, ?_, ?_⟩
    · intro hwin
      have hany2 : (st.rows ++ [[formatTimestamp now1, input,
          intToDecString ((if formatDate now1 ≠ st.currentDate then 0
            else st.dailyCount) + 1)]]).any
          (dupMatch input (toSecs now2 - 7200)) = true := by
        rw [List.any_append, List.any_cons, List.any_nil,
          dupMatch_newRecord now1 input _ (toSecs now2 - 7200) hv1]
        simp [hwin]
      have hcrd2 : checkRecentDuplicate (st.rows ++ [[formatTimestamp now1,
          input, intToDecString ((if formatDate now1 ≠ st.currentDate then 0
            else st.dailyCount) + 1)]]) input (toSecs now2) = some true := by
        rw [checkRecentDuplicate_eq input (toSecs now2) hWF2, hany2]
      unfold scanStep
      rw [if_pos hnum, hcrd2]
    · intro hafter
      have hany2 : (st.rows ++ [[formatTimestamp now1, input,
          intToDecString ((if formatDate now1 ≠ st.currentDate then 0
            else st.dailyCount) + 1)]]).any
          (dupMatch input (toSecs now2 - 7200)) = false := by
        rw [List.any_append, List.any_cons, List.any_nil,
          dupMatch_newRecord now1 input _ (toSecs now2 - 7200) hv1]
        have h1 : st.rows.any (dupMatch input (toSecs now2 - 7200)) = false := by
          cases h2 : st.rows.any (dupMatch input (toSecs now2 - 7200)) with
          | false => rfl
          | true =>
            obtain ⟨r, hr, hid, -⟩ :=
              (any_dupMatch_iff st.rows input (toSecs now2 - 7200)).mp h2
            exact absurd hid (hfresh r hr)
        simp [h1, hafter]
      have hcrd2 : checkRecentDuplicate (st.rows ++ [[formatTimestamp now1,
          input, intToDecString ((if formatDate now1 ≠ st.currentDate then 0
            else st.dailyCount) + 1)]]) input (toSecs now2) = some false := by
        rw [checkRecentDuplicate_eq input (toSecs now2) hWF2, hany2]
      refine ⟨_, scanStep_accepted _ input now2 hnum hcrd2, by simp⟩

theorem c5_duplicate_window_witness :
    ((scanStep ⟨[], "2024-10-25", 0⟩ "123" ⟨2024, 10, 25, 9, 0, 0⟩ =
        some ⟨[], "2024-10-25", 0⟩ ↔
      ∃ r ∈ ([] : List Row), r.get? 1 = some "123" ∧
        ∃ t, rowTime? r = some t ∧
          toSecs ⟨2024, 10, 25, 9, 0, 0⟩ - 7200 < t) ∧
    ((∀ r ∈ ([] : List Row), r.get? 1 ≠ some "123") →
      ∃ st1, scanStep ⟨[], "2024-10-25", 0⟩ "123"
          ⟨2024, 10, 25, 9, 0, 0⟩ = some st1 ∧
        st1.rows.length = ([] : List Row).length + 1 ∧
        (toSecs ⟨2024, 10, 25, 10, 30, 0⟩ - 7200 <
            toSecs ⟨2024, 10, 25, 9, 0, 0⟩ →
          scanStep st1 "123" ⟨2024, 10, 25, 10, 30, 0⟩ = some st1) ∧
        (¬(toSecs ⟨2024, 10, 25, 10, 30, 0⟩ - 7200 <
            toSecs ⟨2024, 10, 25, 9, 0, 0⟩) →
          ∃ st2, scanStep st1 "123" ⟨2024, 10, 25, 10, 30, 0⟩ = some st2 ∧
            st2.rows.length = ([] : List Row).length + 2))) :=
  c5_duplicate_window ⟨[], "2024-10-25", 0⟩ "123"
    ⟨2024, 10, 25, 9, 0, 0⟩ ⟨2024, 10, 25, 10, 30, 0⟩
    (fun r hr => absurd hr (List.not_mem_nil r)) (by decide) (by decide)
    (by decide)

/-- **C10.**  Duplicate suppression is independent of the calendar day:
a scan is rejected (state unchanged, nothing appended) whenever some
stored record carries the same barcode with a timestamp strictly inside
the trailing 2-hour window, even when that record's date prefix differs
from the scan's local date — i.e. the previous day's record still
suppresses a scan shortly after midnight. -/
theorem c10_cross_midnight_rejection (st : ScanState) (input : String)
    (now : DateTime) (r : Row)
    (hWF : WFStore st.rows) (hnum : isNumericStr input = true)
    (hr : r ∈ st.rows) (hid : r.get? 1 = some input)
    (ht : ∃ t, rowTime? r = some t ∧ toSecs now - 7200 < t)
    (_hday : rowDate? r ≠ some (formatDate now)) :
    scanStep st input now = some st := by
  have hany : st.rows.any (dupMatch input (toSecs now - 7200)) = true :=
    (any_dupMatch_iff st.rows input (toSecs now - 7200)).mpr ⟨r, hr, hid, ht⟩
  have hcrd : checkRecentDuplicate st.rows input (toSecs now) = some true := by
    rw [checkRecentDuplicate_eq input (toSecs now) hWF, hany]
  unfold scanStep
  rw [if_pos hnum, hcrd]

theorem c10_cross_midnight_rejection_witness :
    scanStep ⟨[["2024-10-25T23:30:00+00:00", "111", "1"]], "2024-10-26", 0⟩
      "111" ⟨2024, 10, 26, 0, 30, 0⟩ =
    some ⟨[["2024-10-25T23:30:00+00:00", "111", "1"]], "2024-10-26", 0⟩ := by
  refine c10_cross_midnight_rejection
    ⟨[["2024-10-25T23:30:00+00:00", "111", "1"]], "2024-10-26", 0⟩
    "111" ⟨2024, 10, 26, 0, 30, 0⟩
    ["2024-10-25T23:30:00+00:00", "111", "1"]
    ?_ (by decide) (by decide) (by decide)
    ⟨1729899000, by decide, by decide⟩ (by decide)
  intro r hr
  rw [List.mem_singleton] at hr
  subst hr
  exact ⟨_, _, _, rfl, ⟨1729899000, by decide⟩, ⟨1, by decide, by decide⟩⟩

/-- **C6, counterexample.**  Malformed rows are NOT always skipped
per-row: a row with a deviating field count (`["x"]` next to 3-field
rows) makes `csv.ReadAll` fail, so `getDailyCount` returns 0 instead of
the 2 it returns on the remaining well-formed rows, and
`checkRecentDuplicate` returns `false` although a within-window duplicate
is present among the remaining rows; and a 3-field row whose first field
is shorter than 10 bytes makes `getDailyCount` panic
(`record[0][:10]` out of range) rather than skip the row. -/
theorem c6_malformed_counterexample :
    getDailyCount [["2024-10-25T10:00:00+00:00", "111", "2"], ["x"]]
      "2024-10-25" = some 0 ∧
    getDailyCount [["2024-10-25T10:00:00+00:00", "111", "2"]]
      "2024-10-25" = some 2 ∧
    checkRecentDuplicate [["2024-10-25T10:00:00+00:00", "111", "2"], ["x"]]
      "111" (toSecs ⟨2024, 10, 25, 11, 0, 0⟩) = some false ∧
    checkRecentDuplicate [["2024-10-25T10:00:00+00:00", "111", "2"]]
      "111" (toSecs ⟨2024, 10, 25, 11, 0, 0⟩) = some true ∧
    getDailyCount [["short", "111", "2"]] "2024-10-25" = none := by
  decide

/-- **C6 (amended).**  Only timestamp-parse failures are skipped per-row,
and only by the duplicate check and the export filter: a row whose first
field does not parse as a timestamp is passed over and the loop completes
over the remaining rows.  A row that fails CSV-level parsing (field-count
mismatch) instead aborts the whole read: `getDailyCount` then returns 0,
`checkRecentDuplicate` returns false, and Export Mode returns its
read-error path — none of them process the remaining rows.  (And, per the
counterexample, `getDailyCount` panics on a too-short first field.) -/
theorem c6_malformed_rows_amended (rows : List Row) (d id s e : String)
    (t cutoff a b : Int) :
    (readAll rows = none →
      getDailyCount rows d = some 0 ∧
      checkRecentDuplicate rows id t = some false ∧
      runExportMode rows s e = some ExportOutcome.readError) ∧
    ((∀ r ∈ rows, r ≠ []) →
      duplicateLoop id cutoff rows =
        duplicateLoop id cutoff (rows.filter (fun r => (rowTime? r).isSome)) ∧
      exportFilterLoop a b rows =
        exportFilterLoop a b (rows.filter (fun r => (rowTime? r).isSome))) := by
  constructor
  · intro hra
    refine ⟨?_, ?_, ?_⟩
    · unfold getDailyCount
      rw [hra]
    · unfold checkRecentDuplicate
      rw [hra]
    · unfold runExportMode
      rw [hra]
  · intro hne
    exact ⟨duplicateLoop_filter_parse id cutoff rows hne,
      exportFilterLoop_filter_parse a b rows hne⟩

theorem c6_malformed_rows_amended_witness :
    (getDailyCount [["2024-10-25T10:00:00+00:00", "111", "2"], ["x"]]
        "2024-10-25" = some 0 ∧
      checkRecentDuplicate [["2024-10-25T10:00:00+00:00", "111", "2"], ["x"]]
        "111" 0 = some false ∧
      runExportMode [["2024-10-25T10:00:00+00:00", "111", "2"], ["x"]]
        "2024-10-25" "" = some ExportOutcome.readError) ∧
    duplicateLoop "111" 0
        [["garbage-first-field!!", "111", "2"],
         ["2024-10-25T10:00:00+00:00", "111", "2"]] =
      duplicateLoop "111" 0
        (([["garbage-first-field!!", "111", "2"],
           ["2024-10-25T10:00:00+00:00", "111", "2"]] : List Row).filter
          (fun r => (rowTime? r).isSome)) := by
  have h1 := (c6_malformed_rows_amended
    [["2024-10-25T10:00:00+00:00", "111", "2"], ["x"]]
    "2024-10-25" "111" "2024-10-25" "" 0 0 0 0).1 (by decide)
  have h2 := ((c6_malformed_rows_amended
    [["garbage-first-field!!", "111", "2"],
     ["2024-10-25T10:00:00+00:00", "111", "2"]]
    "2024-10-25" "111" "2024-10-25" "" 0 0 0 0).2 (by decide)).1
  exact ⟨h1, h2⟩

/-- **C7, counterexample.**  In the `part_000` variant, Scan Mode appends
a TWO-field record `[timestamp, barcode_id]` — there is no sequence
column — so it is not true that every row ever written to the store CSV
has three columns. -/
theorem c7_two_field_counterexample :
    scanStepPartZero [] "123" ⟨2024, 10, 25, 9, 0, 0⟩ =
      [["2024-10-25T09:00:00+00:00", "123"]] ∧
    (["2024-10-25T09:00:00+00:00", "123"] : Row).length = 2 := by
  decide

/-- **C7 (amended).**  Every record appended by `checkin.go`'s Scan Mode
has exactly three fields: a timestamp that parses back under the
`YYYY-MM-DDTHH:MM:SS±HH:MM` layout to the scan instant, the digits-only
barcode, and a positive integer sequence readable by `Atoi`.  (The
`part_000` variant appends two-field records without a sequence, per the
counterexample.) -/
theorem c7_record_shape_amended (st : ScanState) (input : String)
    (now : DateTime)
    (hnum : isNumericStr input = true)
    (hcrd : checkRecentDuplicate st.rows input (toSecs now) = some false)
    (hv : ValidDT now) (hnn : 0 ≤ st.dailyCount) :
    ∃ st2 k, scanStep st input now = some st2 ∧
      st2.rows = st.rows ++ [[formatTimestamp now, input, intToDecString k]] ∧
      ([formatTimestamp now, input, intToDecString k] : Row).length = 3 ∧
      parseTimestamp (formatTimestamp now) = some (toSecs now) ∧
      input.data ≠ [] ∧ (∀ c ∈ input.data, (digitVal c).isSome) ∧
      0 < k ∧ atoi (intToDecString k) = some k := by
  have hkpos : 0 < (if formatDate now ≠ st.currentDate then 0
      else st.dailyCount) + 1 := by
    split <;> omega
  refine ⟨_, _, scanStep_accepted st input now hnum hcrd, rfl, rfl,
    parseTimestamp_formatTimestamp now hv, ?_, ?_, hkpos,
    atoi_intToDecString_nonneg _ hkpos.le⟩
  · unfold isNumericStr at hnum
    rw [Bool.and_eq_true] at hnum
    simpa using hnum.1
  · unfold isNumericStr at hnum
    rw [Bool.and_eq_true] at hnum
    intro c hc
    have := List.all_eq_true.mp hnum.2 c hc
    simpa using this

theorem c7_record_shape_amended_witness :
    ∃ st2 k, scanStep ⟨[], "2024-10-25", 0⟩ "123"
        ⟨2024, 10, 25, 9, 0, 0⟩ = some st2 ∧
      st2.rows = ([] : List Row) ++
        [[formatTimestamp ⟨2024, 10, 25, 9, 0, 0⟩, "123", intToDecString k]] ∧
      ([formatTimestamp ⟨2024, 10, 25, 9, 0, 0⟩, "123",
        intToDecString k] : Row).length = 3 ∧
      parseTimestamp (formatTimestamp ⟨2024, 10, 25, 9, 0, 0⟩) =
        some (toSecs ⟨2024, 10, 25, 9, 0, 0⟩) ∧
      ("123" : String).data ≠ [] ∧
      (∀ c ∈ ("123" : String).data, (digitVal c).isSome) ∧
      0 < k ∧ atoi (intToDecString k) = some k :=
  c7_record_shape_amended ⟨[], "2024-10-25", 0⟩ "123"
    ⟨2024, 10, 25, 9, 0, 0⟩ (by decide) (by decide) (by decide) (by decide)

end Checkin
